import Mathlib

/-!
Verification of the job-lifecycle engine of the Youtube_downloader repository
(`downloader.py`, `app.py`) against its natural-language specification.

The Python source is shallowly embedded: every definition below is a direct
translation of the corresponding Python function (names are kept where Lean
allows them).  Nondeterministic inputs of the real program (uuid generation,
the clock, filesystem success/failure, the network collaborator yt-dlp) are
passed in as explicit parameters or oracle functions.  Python floats are
modelled as rationals; Python strings as Lean strings, with byte-level
details (unicode normalisation, float formatting precision) irrelevant to
every property proved here.
-/

/-! ### Generic string helpers (List-level models of the Python string ops) -/

/-- Membership-style model of Python `p.startswith(q)` / list prefix test. -/
def strIsPrefix (pre s : String) : Bool :=
  pre.toList.isPrefixOf s.toList

/-- Model of Python `s.endswith(q)` via list suffixes. -/
def strIsSuffix (suf s : String) : Bool :=
  suf.toList.isSuffixOf s.toList

/-- Model of Python `sub in s` (substring containment). -/
def strContains (s sub : String) : Bool :=
  s.toList.tails.any (fun t => sub.toList.isPrefixOf t)

/-! ### `safe_folder`  (downloader.py lines 58-59)

`re.sub(r'[\\/:*?"<>|]+', "_", name).strip() or "Untitled"`:
every maximal run of forbidden characters becomes one underscore, the result
is stripped of surrounding whitespace, and an empty result falls back to
`"Untitled"`. -/

/-- Characters of the character class in the regex of `safe_folder`. -/
def forbiddenChar (c : Char) : Bool :=
  c = '\\' || c = '/' || c = ':' || c = '*' || c = '?' || c = '"' ||
  c = '<' || c = '>' || c = '|'

/-- Whitespace as stripped by Python `str.strip()` (ASCII part; the claims
never involve non-ASCII whitespace). -/
def isSpaceChar (c : Char) : Bool :=
  c = ' ' || c = '\t' || c = '\n' || c = '\r' || c = '\x0b' || c = '\x0c'

/-- Replace every maximal run of forbidden characters by a single `'_'`.
The boolean argument records whether the previous character was forbidden
(so the run only emits one underscore), mirroring the `+` of the regex. -/
def subRunsAux : Bool → List Char → List Char
  | _, [] => []
  | prevForb, c :: rest =>
    if forbiddenChar c then
      (if prevForb then [] else ['_']) ++ subRunsAux true rest
    else
      c :: subRunsAux false rest

/-- Model of Python `str.strip()` on a character list. -/
def stripChars (cs : List Char) : List Char :=
  ((cs.dropWhile isSpaceChar).reverse.dropWhile isSpaceChar).reverse

/-- Embedding of `safe_folder` (downloader.py line 58). -/
def safe_folder (name : String) : String :=
  let t := String.mk (stripChars (subRunsAux false name.toList))
  if t = "" then "Untitled" else t

/-! ### `_format_string`  (downloader.py lines 202-207) -/

/-- Embedding of `_format_string` (downloader.py lines 202-207). -/
def _format_string (media_type : String) (height : Option Int) : String :=
  if media_type = "audio" then "bestaudio/best"
  else
    match height with
    | none => "bv*+ba/b"
    | some h => "bv*[height=" ++ toString h ++ "]+ba/b[height=" ++ toString h ++ "]"

/-! ### The job record  (the dict built in `create_job`, downloader.py 393-415)

The Python job is a string-keyed dict whose value set is fixed at creation;
we embed it as a structure with one field per key (`_cancel` keeps its
Python name).  `progress` is a Python float, embedded as a rational;
`created` is `int(time.time())`. -/

structure Job where
  jobId : String
  url : String
  mediaType : String
  videoHeight : Option Int
  audioBitrate : String
  selectedUrls : List String
  rootDir : String
  finalDir : Option String
  status : String
  progress : ℚ
  percent : String
  eta : String
  speed : String
  message : String
  _cancel : Bool
  kind : Option String
  title : String
  currentItem : Nat
  totalItems : Nat
  currentTitle : String
  created : Int
  deriving DecidableEq

/-- Keys of the dict literal assigned to `JOBS[job_id]` in `create_job`
(downloader.py lines 393-415), in source order.  `get_job` returns this
dict unchanged and `app.py` serialises it verbatim (`jsonify(job)` /
`json.dumps(job)`), so these are exactly the keys of every snapshot. -/
def createJobKeys : List String :=
  ["jobId", "url", "mediaType", "videoHeight", "audioBitrate", "selectedUrls",
   "rootDir", "finalDir", "status", "progress", "percent", "eta", "speed",
   "message", "_cancel", "kind", "title", "currentItem", "totalItems",
   "currentTitle", "created"]

/-- Field list written in the spec ("Job snapshot JSON fields (wire-exact)"),
stated from the spec's words for comparison against `createJobKeys`. -/
def specSnapshotFields : List String :=
  ["jobId", "url", "mediaType", "videoHeight", "audioBitrate", "selectedUrls",
   "rootDir", "finalDir", "status", "progress", "percent", "eta", "speed",
   "message", "kind", "title", "currentItem", "totalItems", "currentTitle",
   "created"]

/-- Model of Python falsiness `audio_bitrate or "best"` for optional strings. -/
def orBest : Option String → String
  | none => "best"
  | some s => if s = "" then "best" else s

/-- Embedding of the record construction in `create_job` (downloader.py
lines 388-415).  `job_id` (a uuid), the resolved `root_dir` and the clock
value `created` are nondeterministic in the source and passed as
parameters. -/
def create_job_record (job_id url media_type : String) (video_height : Option Int)
    (audio_bitrate : Option String) (selected_urls : Option (List String))
    (root_dir : String) (created : Int) : Job :=
  { jobId := job_id
    url := url
    mediaType := media_type
    videoHeight := video_height
    audioBitrate := orBest audio_bitrate
    selectedUrls := (selected_urls.getD [])
    rootDir := root_dir
    finalDir := none
    status := "queued"
    progress := 0
    percent := "0%"
    eta := ""
    speed := ""
    message := ""
    _cancel := false
    kind := none
    title := ""
    currentItem := 0
    totalItems := 0
    currentTitle := ""
    created := created }

/-! ### `cancel_job`  (downloader.py lines 420-426) -/

/-- Record update performed by `cancel_job` once the job id resolved
(downloader.py lines 424-425): set the `_cancel` flag and overwrite
`message`, with no check of the current status. -/
def cancel_job_update (job : Job) : Job :=
  { job with _cancel := true, message := "Cancel requested…" }

/-- Embedding of `cancel_job` (downloader.py lines 420-426) over the job
registry, modelled as a partial map from id to record.  Returns the updated
registry and the boolean result. -/
def cancel_job (jobs : String → Option Job) (job_id : String) :
    (String → Option Job) × Bool :=
  match jobs job_id with
  | none => (jobs, false)
  | some job =>
    (fun k => if k = job_id then some (cancel_job_update job) else jobs k, true)

/-- Statuses that the spec calls terminal (`done`, `error`, `canceled`);
the same three strings end the stream loop in app.py line 353. -/
def isTerminalStatus (s : String) : Bool :=
  s = "done" || s = "error" || s = "canceled"

/-- Sample record of a job that has finished successfully: the fields a job
holds after the worker's normal `done` path (downloader.py lines 361-367). -/
def doneJob : Job :=
  { jobId := "j1"
    url := "https://example/video1"
    mediaType := "video"
    videoHeight := none
    audioBitrate := "best"
    selectedUrls := []
    rootDir := "/root/storage"
    finalDir := some "/root/storage"
    status := "done"
    progress := 100
    percent := "100%"
    eta := ""
    speed := ""
    message := "Completed"
    _cancel := false
    kind := some "video"
    title := "t"
    currentItem := 1
    totalItems := 1
    currentTitle := "t"
    created := 0 }

/-- Registry holding exactly `doneJob` under id `"j1"`. -/
def demoRegistry : String → Option Job :=
  fun k => if k = "j1" then some doneJob else none

/-! ### Claims C1, C4, C6, C10 -/

/-- C1 (counterexample): cancelling a job whose status is already terminal is
NOT a field-wise no-op: on a `done` job with message `"Completed"`,
`cancel_job` overwrites `message` with `"Cancel requested…"` (and sets
`_cancel`), so the stored record changes. -/
theorem cancel_job_terminal_changes_message :
    isTerminalStatus doneJob.status = true ∧
    (cancel_job demoRegistry "j1").1 "j1" ≠ some doneJob ∧
    Option.map Job.message ((cancel_job demoRegistry "j1").1 "j1") =
      some "Cancel requested…" ∧
    doneJob.message = "Completed" := by
  refine ⟨by decide, ?_, by decide, by decide⟩
  intro h
  simp only [cancel_job, demoRegistry, if_pos rfl] at h
  have := Option.some.inj h
  exact absurd (congrArg Job.message this) (by decide)

/-- C1 (amended): requesting cancellation on a terminal job never changes
`status` (no transition out of a terminal state) and leaves every field
except `_cancel` and `message` unchanged, but it does set `_cancel := true`
and overwrite `message` with `"Cancel requested…"`; other registry entries
are untouched. -/
theorem cancel_job_terminal_behavior (jobs : String → Option Job)
    (job_id : String) (job : Job) (hfound : jobs job_id = some job)
    (hterm : isTerminalStatus job.status = true) :
    (cancel_job jobs job_id).1 job_id = some (cancel_job_update job) ∧
    (cancel_job_update job).status = job.status ∧
    (cancel_job_update job)._cancel = true ∧
    (cancel_job_update job).message = "Cancel requested…" ∧
    (cancel_job_update job).progress = job.progress ∧
    (cancel_job_update job).finalDir = job.finalDir ∧
    (cancel_job_update job).currentItem = job.currentItem ∧
    (cancel_job_update job).totalItems = job.totalItems ∧
    (∀ k, k ≠ job_id → (cancel_job jobs job_id).1 k = jobs k) := by
  have : cancel_job jobs job_id =
      (fun k => if k = job_id then some (cancel_job_update job) else jobs k, true) := by
    unfold cancel_job
    rw [hfound]
  refine ⟨?_, rfl, rfl, rfl, rfl, rfl, rfl, rfl, ?_⟩
  · rw [this]
    simp
  · intro k hk
    rw [this]
    simp [hk]

/-- C1 (witness): the amended statement evaluated on the concrete registry
holding the finished job `doneJob`. -/
theorem cancel_job_terminal_behavior_witness :
    (cancel_job demoRegistry "j1").1 "j1" = some (cancel_job_update doneJob) :=
  (cancel_job_terminal_behavior demoRegistry "j1" doneJob (by decide) (by decide)).1

/-- C4 (counterexample): the stored job record (returned verbatim by
`get_job` and serialised as the snapshot) carries the internal key
`"_cancel"`, which is not in the spec's wire-exact field list — so the
snapshot's field set is not exactly the spec's list. -/
theorem job_record_has_cancel_field :
    "_cancel" ∈ createJobKeys ∧ "_cancel" ∉ specSnapshotFields := by
  decide

/-- C4 (amended): the snapshot's key set is exactly the spec's twenty wire
fields plus the internal `"_cancel"` flag — the keys of the record built by
`create_job` are a permutation of `specSnapshotFields ++ ["_cancel"]`, so
nothing else is missing or added. -/
theorem job_record_keys_perm :
    List.Perm createJobKeys (specSnapshotFields ++ ["_cancel"]) := by
  decide

/-- C10: for every height argument (absent or any integer), the format
string selected for an audio job is the constant `"bestaudio/best"` —
the requested video height has no effect on audio format selection. -/
theorem format_string_audio_const (height : Option Int) :
    _format_string "audio" height = "bestaudio/best" := rfl

/-! ### Lemmas about `safe_folder` -/

/-- Unfolding equation of `subRunsAux` on a cons cell. -/
theorem subRunsAux_cons (prev : Bool) (c : Char) (rest : List Char) :
    subRunsAux prev (c :: rest) =
      if forbiddenChar c then
        (if prev then [] else ['_']) ++ subRunsAux true rest
      else c :: subRunsAux false rest := rfl

/-- Every character emitted by the run-substitution pass is either copied
from a non-forbidden position or the underscore replacement. -/
theorem subRunsAux_no_forbidden (cs : List Char) :
    ∀ prev, ∀ c ∈ subRunsAux prev cs, forbiddenChar c = false := by
  induction cs with
  | nil => intro prev c hc; simp [subRunsAux] at hc
  | cons a rest ih =>
    intro prev c hc
    rw [subRunsAux_cons] at hc
    cases hfa : forbiddenChar a with
    | true =>
      rw [hfa, if_pos rfl] at hc
      rcases List.mem_append.1 hc with h1 | h2
      · cases prev with
        | true => simp at h1
        | false =>
          simp at h1
          subst h1; decide
      · exact ih true c h2
    | false =>
      rw [hfa] at hc
      simp only [Bool.false_eq_true, if_false] at hc
      rcases List.mem_cons.1 hc with rfl | h2
      · exact hfa
      · exact ih false c h2

/-- Stripping surrounding whitespace only removes characters. -/
theorem stripChars_subset (cs : List Char) : ∀ c ∈ stripChars cs, c ∈ cs := by
  intro c hc
  unfold stripChars at hc
  rw [List.mem_reverse] at hc
  have h1 := (List.dropWhile_sublist isSpaceChar).subset hc
  rw [List.mem_reverse] at h1
  exact (List.dropWhile_sublist isSpaceChar).subset h1

/-- Whitespace characters are not in the forbidden class. -/
theorem space_not_forbidden (c : Char) (h : isSpaceChar c = true) :
    forbiddenChar c = false := by
  simp only [isSpaceChar, Bool.or_eq_true, decide_eq_true_eq] at h
  rcases h with ((((rfl | rfl) | rfl) | rfl) | rfl) | rfl <;> decide

/-- On input without forbidden characters the substitution pass is the
identity. -/
theorem subRunsAux_id (cs : List Char) (h : ∀ c ∈ cs, forbiddenChar c = false) :
    ∀ prev, subRunsAux prev cs = cs := by
  induction cs with
  | nil => intro _; rfl
  | cons a rest ih =>
    intro prev
    have ha := h a (List.mem_cons_self a rest)
    rw [subRunsAux_cons, ha]
    simp only [Bool.false_eq_true, if_false]
    rw [ih (fun c hc => h c (List.mem_cons_of_mem a hc)) false]

/-- C6: `safe_folder` always returns a nonempty name, the result contains
none of the characters `\ / : * ? " < > |`, and an all-whitespace input
(including the empty string) yields the fixed placeholder `"Untitled"`. -/
theorem safe_folder_spec (s : String) :
    safe_folder s ≠ "" ∧
    (∀ c ∈ (safe_folder s).toList, forbiddenChar c = false) ∧
    ((∀ c ∈ s.toList, isSpaceChar c = true) → safe_folder s = "Untitled") := by
  refine ⟨?_, ?_, ?_⟩
  · show (if String.mk (stripChars (subRunsAux false s.toList)) = ""
        then "Untitled" else String.mk (stripChars (subRunsAux false s.toList))) ≠ ""
    split
    · decide
    · assumption
  · show ∀ c ∈ (if String.mk (stripChars (subRunsAux false s.toList)) = ""
        then "Untitled"
        else String.mk (stripChars (subRunsAux false s.toList))).toList,
      forbiddenChar c = false
    split
    · decide
    · intro c hc
      have hc' : c ∈ stripChars (subRunsAux false s.toList) := hc
      exact subRunsAux_no_forbidden s.toList false c
        (stripChars_subset _ c hc')
  · intro hsp
    have hnf : ∀ c ∈ s.toList, forbiddenChar c = false :=
      fun c hc => space_not_forbidden c (hsp c hc)
    have h1 : subRunsAux false s.toList = s.toList := subRunsAux_id s.toList hnf false
    have h2 : List.dropWhile isSpaceChar s.toList = [] :=
      List.dropWhile_eq_nil_iff.2 hsp
    show (if String.mk (stripChars (subRunsAux false s.toList)) = ""
        then "Untitled" else String.mk (stripChars (subRunsAux false s.toList)))
      = "Untitled"
    rw [h1]
    unfold stripChars
    rw [h2]
    decide

/-- C6 (witness): a whitespace-only title falls back to the placeholder,
which is nonempty. -/
theorem safe_folder_spec_witness :
    safe_folder "  " = "Untitled" ∧ safe_folder "  " ≠ "" :=
  ⟨(safe_folder_spec "  ").2.2 (by decide), (safe_folder_spec "  ").1⟩

/-! ### Terminal transition of `_download_worker`  (downloader.py 326-386)

The try-block of the worker ends in one of four ways: normal return of the
item loop, `KeyboardInterrupt` (raised by the progress hook on
cancellation), `DownloadError`, or any other exception.  The corresponding
record mutations (lines 360-377) and the `finally` annotation (lines
384-386) are embedded below; the filesystem part of the `finally` block is
the Staging Reconciler, modelled separately. -/

inductive WorkerOutcome where
  | normal
  | keyboardInterrupt
  | downloadError (msg : String)
  | otherError (msg : String)
  deriving DecidableEq

/-- Embedding of the terminal record mutations of `_download_worker`
(downloader.py lines 360-377), one case per way the try-block ends.  On
`normal` the source reads the record's own `_cancel` flag (line 361). -/
def workerSetTerminal (job : Job) (o : WorkerOutcome) : Job :=
  match o with
  | .normal =>
    let j1 := { job with status := if job._cancel = false then "done" else "canceled" }
    let j2 := { j1 with message := if j1.status = "done" then "Completed" else "Canceled" }
    let j3 := if j2.status = "done" then { j2 with progress := 100, percent := "100%" } else j2
    { j3 with eta := "", speed := "" }
  | .keyboardInterrupt => { job with status := "canceled", message := "Canceled" }
  | .downloadError msg => { job with status := "error", message := "DownloadError: " ++ msg }
  | .otherError msg => { job with status := "error", message := "Error: " ++ msg }

/-- Embedding of the message annotation in the worker's `finally` block
(downloader.py lines 385-386). -/
def workerFinallyAnnotate (job : Job) : Job :=
  if job.status = "canceled" then
    { job with message := "Canceled — completed items saved to destination." }
  else job

/-- Full terminal update of the job record on worker exit. -/
def workerTerminal (job : Job) (o : WorkerOutcome) : Job :=
  workerFinallyAnnotate (workerSetTerminal job o)

theorem workerFinallyAnnotate_speed (j : Job) :
    (workerFinallyAnnotate j).speed = j.speed := by
  unfold workerFinallyAnnotate; split <;> rfl

theorem workerFinallyAnnotate_eta (j : Job) :
    (workerFinallyAnnotate j).eta = j.eta := by
  unfold workerFinallyAnnotate; split <;> rfl

theorem workerFinallyAnnotate_status (j : Job) :
    (workerFinallyAnnotate j).status = j.status := by
  unfold workerFinallyAnnotate; split <;> rfl

/-- Record of a job mid-download: `running`, with live speed/eta strings and
the cancel flag just set (the state in which the hook raises
`KeyboardInterrupt`). -/
def runningJob : Job :=
  { jobId := "j2"
    url := "https://example/video1"
    mediaType := "video"
    videoHeight := none
    audioBitrate := "best"
    selectedUrls := []
    rootDir := "/root/storage"
    finalDir := some "/root/storage"
    status := "running"
    progress := 40
    percent := "40.0%"
    eta := "5s"
    speed := "1.00 MiB/s"
    message := "Downloading item 1/1…"
    _cancel := true
    kind := some "video"
    title := "t"
    currentItem := 1
    totalItems := 1
    currentTitle := "t"
    created := 0 }

/-- C3 (counterexample): when the worker terminates through the
`KeyboardInterrupt` raised by the progress hook (cancellation observed
mid-transfer), the job reaches the terminal status `canceled` with its
transient `speed` and `eta` fields NOT cleared: they keep their previous
nonempty values. -/
theorem worker_interrupt_keeps_speed_eta :
    (workerTerminal runningJob .keyboardInterrupt).status = "canceled" ∧
    (workerTerminal runningJob .keyboardInterrupt).speed = "1.00 MiB/s" ∧
    (workerTerminal runningJob .keyboardInterrupt).eta = "5s" ∧
    runningJob.speed ≠ "" ∧ runningJob.eta ≠ "" := by
  decide

/-- C3 (amended): the worker clears `speed`/`eta` exactly on the normal
return path of the item loop (terminal `done`, or `canceled` when the flag
was observed by the loop); on the `KeyboardInterrupt`, `DownloadError` and
generic-exception paths the terminal record keeps the previous `speed` and
`eta` values unchanged. -/
theorem worker_terminal_speed_eta (job : Job) (msg emsg : String) :
    ((workerTerminal job .normal).speed = "" ∧
     (workerTerminal job .normal).eta = "") ∧
    ((workerTerminal job .keyboardInterrupt).status = "canceled" ∧
     (workerTerminal job .keyboardInterrupt).speed = job.speed ∧
     (workerTerminal job .keyboardInterrupt).eta = job.eta) ∧
    ((workerTerminal job (.downloadError msg)).status = "error" ∧
     (workerTerminal job (.downloadError msg)).speed = job.speed ∧
     (workerTerminal job (.downloadError msg)).eta = job.eta) ∧
    ((workerTerminal job (.otherError emsg)).status = "error" ∧
     (workerTerminal job (.otherError emsg)).speed = job.speed ∧
     (workerTerminal job (.otherError emsg)).eta = job.eta) := by
  unfold workerTerminal
  refine ⟨⟨?_, ?_⟩, ⟨?_, ?_, ?_⟩, ⟨?_, ?_, ?_⟩, ⟨?_, ?_, ?_⟩⟩ <;>
    simp only [workerFinallyAnnotate_speed, workerFinallyAnnotate_eta,
      workerFinallyAnnotate_status] <;> rfl

/-! ### URL selection and the item loop  (downloader.py 299-324, 354-358) -/

/-- Embedding of the URL choice in `_download_worker` (lines 355-356):
the caller's selection when the probe said playlist and the selection is
nonempty, else the single source URL. -/
def chooseUrls (kind : String) (selected_urls : List String) (url : String) :
    List String :=
  if kind = "playlist" ∧ selected_urls ≠ [] then selected_urls else [url]

/-- Trace of the item loop of `_download_urls` (downloader.py lines
311-324): the (1-based `currentItem`, url) pairs attempted in order, and
whether the loop ended without an exception.  `fails i` says the download
of item `i` raised (the exception propagates, aborting the loop);
`cancelAfter i` is the value of the record's `_cancel` flag as read at the
bottom of iteration `i` (line 323). -/
def downloadLoopTrace (fails cancelAfter : Nat → Bool) :
    List String → Nat → List (Nat × String) × Bool
  | [], _ => ([], true)
  | u :: rest, i =>
    if fails i then ([(i, u)], false)
    else if cancelAfter i then ([(i, u)], true)
    else
      let r := downloadLoopTrace fails cancelAfter rest (i + 1)
      ((i, u) :: r.1, r.2)

/-- Embedding of `_download_urls` (downloader.py lines 299-324) at trace
level: `totalItems` is set to the length of the url list before the loop
(line 312), then the loop runs.  Returns ((trace, completed), totalItems). -/
def _download_urls (fails cancelAfter : Nat → Bool) (urls : List String) :
    (List (Nat × String) × Bool) × Nat :=
  (downloadLoopTrace fails cancelAfter urls 1, urls.length)

theorem downloadLoopTrace_no_interruption (fails cancelAfter : Nat → Bool)
    (hf : ∀ i, fails i = false) (hc : ∀ i, cancelAfter i = false) :
    ∀ (urls : List String) (i : Nat),
      downloadLoopTrace fails cancelAfter urls i = (List.enumFrom i urls, true) := by
  intro urls
  induction urls with
  | nil => intro i; rfl
  | cons u rest ih =>
    intro i
    simp only [downloadLoopTrace, hf, hc, Bool.false_eq_true, if_false,
      List.enumFrom_cons, ih (i + 1)]

/-- C5: with a playlist source and a nonempty selection of k urls, and
no cancellation and no unrecovered error, the worker processes exactly the
selected urls in the given order with `currentItem` = 1..k and
`totalItems` = k; with a non-playlist source or an empty selection it
processes the single source url and `totalItems` = 1. -/
theorem playlist_selection_processing (kind url : String)
    (sel : List String) (fails cancelAfter : Nat → Bool)
    (hf : ∀ i, fails i = false) (hc : ∀ i, cancelAfter i = false) :
    (kind = "playlist" → sel ≠ [] →
      (_download_urls fails cancelAfter (chooseUrls kind sel url)).2 = sel.length ∧
      ((_download_urls fails cancelAfter (chooseUrls kind sel url)).1).1.map
          Prod.snd = sel ∧
      ((_download_urls fails cancelAfter (chooseUrls kind sel url)).1).1.map
          Prod.fst = List.range' 1 sel.length ∧
      ((_download_urls fails cancelAfter (chooseUrls kind sel url)).1).2 = true) ∧
    (¬(kind = "playlist" ∧ sel ≠ []) →
      (_download_urls fails cancelAfter (chooseUrls kind sel url)).2 = 1 ∧
      ((_download_urls fails cancelAfter (chooseUrls kind sel url)).1).1 =
        [(1, url)] ∧
      ((_download_urls fails cancelAfter (chooseUrls kind sel url)).1).2 = true) := by
  constructor
  · intro hk hs
    have hch : chooseUrls kind sel url = sel := by
      unfold chooseUrls
      rw [if_pos ⟨hk, hs⟩]
    unfold _download_urls
    rw [hch, downloadLoopTrace_no_interruption fails cancelAfter hf hc sel 1]
    exact ⟨rfl, List.enumFrom_map_snd 1 sel, List.enumFrom_map_fst 1 sel, rfl⟩
  · intro hnk
    have hch : chooseUrls kind sel url = [url] := by
      unfold chooseUrls
      rw [if_neg hnk]
    unfold _download_urls
    rw [hch, downloadLoopTrace_no_interruption fails cancelAfter hf hc [url] 1]
    exact ⟨rfl, rfl, rfl⟩

/-- C5 (witness): a playlist job with the concrete selection
`["u1", "u2"]` processes exactly those two urls in order, with
`totalItems` = 2. -/
theorem playlist_selection_processing_witness :
    (_download_urls (fun _ => false) (fun _ => false)
        (chooseUrls "playlist" ["u1", "u2"] "src")).2 = 2 ∧
    ((_download_urls (fun _ => false) (fun _ => false)
        (chooseUrls "playlist" ["u1", "u2"] "src")).1).1.map Prod.snd =
      ["u1", "u2"] := by
  have h := (playlist_selection_processing "playlist" "src" ["u1", "u2"]
      (fun _ => false) (fun _ => false) (fun _ => rfl) (fun _ => rfl)).1
      rfl (by decide)
  exact ⟨h.1, h.2.1⟩

/-! ### Display-string helpers  (downloader.py 70-102)

These produce the human-readable `percent`/`speed`/`eta` strings.  They are
embedded so the progress hook below has the source's exact shape; no claim
inspects their output beyond (non)emptiness.  Fixed-point rendering of
floats is modelled at rational precision. -/

/-- Character class `[0-9;]` of the ANSI-escape regex in `strip_ansi`. -/
def isAnsiBody (c : Char) : Bool := ('0' ≤ c && c ≤ '9') || c = ';'

/-- Removal of `\x1b[[0-9;]*m` escape sequences, the substitution performed
by `strip_ansi` (downloader.py line 73).  The fuel argument (called with the
list length) only serves structural recursion; every step consumes at least
one character, so the fuel never runs out. -/
def stripAnsiAux : Nat → List Char → List Char
  | 0, cs => cs
  | fuel + 1, cs =>
    match cs with
    | [] => []
    | c :: rest =>
      if c = '\x1b' then
        match rest with
        | '[' :: rest2 =>
          match rest2.dropWhile isAnsiBody with
          | 'm' :: tail => stripAnsiAux fuel tail
          | _ => c :: stripAnsiAux fuel rest
        | _ => c :: stripAnsiAux fuel rest
      else c :: stripAnsiAux fuel rest

/-- Embedding of `strip_ansi` (downloader.py lines 70-73). -/
def strip_ansi : Option String → String
  | none => ""
  | some s =>
    if s = "" then "" else String.mk (stripAnsiAux s.toList.length s.toList)

/-- Fixed-point rendering with one decimal digit, Python `f"{x:.1f}"` at
rational precision. -/
def fmt1 (q : ℚ) : String :=
  let n : Int := round (q * 10)
  toString (n / 10) ++ "." ++ toString (n % 10).natAbs

/-- Fixed-point rendering with two decimal digits, Python `f"{x:.2f}"` at
rational precision. -/
def fmt2 (q : ℚ) : String :=
  let n : Int := round (q * 100)
  let fr := (n % 100).natAbs
  toString (n / 100) ++ "." ++ (if fr < 10 then "0" else "") ++ toString fr

/-- Loop of `humanize_bytes` (downloader.py lines 75-80). -/
def humanize_bytes_aux : ℚ → List String → String
  | n, [] => fmt2 n ++ " B"
  | n, u :: rest =>
    if n < 1024 ∨ u = "TiB" then fmt2 n ++ " " ++ u
    else humanize_bytes_aux (n / 1024) rest

/-- Embedding of `humanize_bytes` (downloader.py lines 75-80). -/
def humanize_bytes (n : ℚ) : String :=
  humanize_bytes_aux n ["B", "KiB", "MiB", "GiB", "TiB"]

/-- Embedding of `humanize_bps` (downloader.py lines 82-86); `none` models a
non-numeric `v`. -/
def humanize_bps (v : Option ℚ) (fallback : Option String) : String :=
  match v with
  | some x => if 0 < x then humanize_bytes x ++ "/s" else strip_ansi fallback
  | none => strip_ansi fallback

/-- Embedding of `humanize_seconds` (downloader.py lines 88-102);
`int(max(0, sec))` is floor on the nonnegative clamp. -/
def humanize_seconds : Option ℚ → String
  | none => ""
  | some sec =>
    let s : Nat := (max 0 sec).floor.toNat
    let h := s / 3600
    let m := (s % 3600) / 60
    let ss := s % 60
    if h ≠ 0 then toString h ++ "h " ++ toString m ++ "m " ++ toString ss ++ "s"
    else if m ≠ 0 then toString m ++ "m " ++ toString ss ++ "s"
    else toString ss ++ "s"

/-- Model of Python string `or` (empty string is falsy). -/
def orNonempty (a b : String) : String := if a = "" then b else a

/-- Model of `os.path.basename` for the progress hook's finished message. -/
def basename (p : String) : String :=
  String.mk ((p.toList.reverse.takeWhile (fun c => c ≠ '/')).reverse)

/-! ### The progress hook  (downloader.py 209-229) -/

/-- Fields of the dict yt-dlp passes to a progress hook, as read by
`_progress_hook`.  Numeric fields are optional rationals (`none` = key
absent/None). -/
structure HookEvent where
  status : String
  total_bytes : Option ℚ
  total_bytes_estimate : Option ℚ
  downloaded_bytes : Option ℚ
  speed : Option ℚ
  speed_str : Option String
  eta : Option ℚ
  eta_str : Option String
  filename : String
  deriving DecidableEq

/-- Python falsiness for an optional number: `None` and `0` are falsy. -/
def qFalsy : Option ℚ → Option ℚ
  | none => none
  | some x => if x = 0 then none else some x

/-- Value of `d.get("total_bytes") or d.get("total_bytes_estimate") or 0`
(downloader.py line 217). -/
def hookTotal (d : HookEvent) : ℚ :=
  match qFalsy d.total_bytes with
  | some x => x
  | none =>
    match qFalsy d.total_bytes_estimate with
    | some y => y
    | none => 0

/-- Value of `d.get("downloaded_bytes") or 0` (downloader.py line 218). -/
def hookDownloaded (d : HookEvent) : ℚ :=
  match qFalsy d.downloaded_bytes with
  | some x => x
  | none => 0

/-- Embedding of the record mutations of the hook closure in
`_progress_hook` (downloader.py lines 210-228).  The returned boolean is
the final `_cancel` check (line 226): `true` means the hook raises
`KeyboardInterrupt` after the mutations, exactly as in the source. -/
def _progress_hook (job : Job) (d : HookEvent) : Job × Bool :=
  let j :=
    if d.status = "downloading" then
      let j1 := { job with status := "running" }
      let total := hookTotal d
      let dl := hookDownloaded d
      let j2 := if total ≠ 0 then { j1 with progress := dl / total * 100 } else j1
      { j2 with
        percent := fmt1 j2.progress ++ "%"
        speed := humanize_bps d.speed d.speed_str
        eta := orNonempty (humanize_seconds d.eta) (strip_ansi d.eta_str) }
    else if d.status = "finished" then
      { job with message := "Processing " ++ basename d.filename ++ "…" }
    else job
  (j, j._cancel)

/-- C8: on a `"downloading"` hook event with no byte total (neither
`total_bytes` nor `total_bytes_estimate` carries a nonzero value) the job's
`progress` is left unchanged while `status` is still set to `"running"`;
when a total is present, `progress` becomes downloaded/total × 100. -/
theorem progress_hook_total_behavior (job : Job) (d : HookEvent)
    (hst : d.status = "downloading") :
    (hookTotal d = 0 →
      (_progress_hook job d).1.progress = job.progress ∧
      (_progress_hook job d).1.status = "running") ∧
    (hookTotal d ≠ 0 →
      (_progress_hook job d).1.progress = hookDownloaded d / hookTotal d * 100 ∧
      (_progress_hook job d).1.status = "running") := by
  constructor
  · intro h0
    constructor <;> simp [_progress_hook, hst, h0]
  · intro h0
    constructor <;> simp [_progress_hook, hst, h0]

/-- Event with no total at all, as sent while the size is still unknown. -/
def noTotalEvent : HookEvent :=
  { status := "downloading"
    total_bytes := none
    total_bytes_estimate := none
    downloaded_bytes := some 512
    speed := some 2048
    speed_str := none
    eta := none
    eta_str := none
    filename := "clip.mp4" }

/-- C8 (witness): on a concrete no-total event, a queued job keeps its
`progress` value and moves to `running`. -/
theorem progress_hook_total_behavior_witness :
    (_progress_hook runningJob noTotalEvent).1.progress = runningJob.progress ∧
    (_progress_hook runningJob noTotalEvent).1.status = "running" :=
  (progress_hook_total_behavior runningJob noTotalEvent rfl).1 (by decide)

/-! ### `_try_download_one`  (downloader.py 231-260) -/

/-- Outcome of one yt-dlp `download` invocation: success, a
`DownloadError` with message, or any other exception (which
`_try_download_one` does not catch). -/
inductive DlAttempt where
  | ok
  | dlError (msg : String)
  | otherRaise
  deriving DecidableEq

/-- Error-message marker tested by `_try_download_one` (line 246). -/
def fmtUnavailableMarker : String := "Requested format is not available"

/-- Embedding of `_try_download_one` (downloader.py lines 231-260).
`attempt k fmt` is the outcome of the k-th yt-dlp invocation (0 = first
try, 1 = fallback) with format string `fmt`.  Returns the format strings
attempted in order and the final outcome (`ok`, or the exception that
propagates to the caller). -/
def _try_download_one (attempt : Nat → String → DlAttempt)
    (media_type : String) (height : Option Int) : List String × DlAttempt :=
  let fmt := _format_string media_type height
  match attempt 0 fmt with
  | .ok => ([fmt], .ok)
  | .otherRaise => ([fmt], .otherRaise)
  | .dlError msg =>
    if strContains msg fmtUnavailableMarker then
      let best := _format_string media_type none
      ([fmt, best], attempt 1 best)
    else ([fmt], .dlError msg)

/-- C7: when the first attempt fails with the "requested format not
available" `DownloadError`, exactly one fallback attempt is made, at the
best-available format for the media type, and the item fails only if that
fallback fails; a `DownloadError` without the marker, or any other
exception, propagates with no fallback attempt; a successful first attempt
makes exactly one attempt. -/
theorem try_download_one_fallback (attempt : Nat → String → DlAttempt)
    (media_type : String) (height : Option Int) :
    (∀ msg, attempt 0 (_format_string media_type height) = .dlError msg →
      strContains msg fmtUnavailableMarker = true →
      _try_download_one attempt media_type height =
        ([_format_string media_type height, _format_string media_type none],
         attempt 1 (_format_string media_type none))) ∧
    (∀ msg, attempt 0 (_format_string media_type height) = .dlError msg →
      strContains msg fmtUnavailableMarker = false →
      _try_download_one attempt media_type height =
        ([_format_string media_type height], .dlError msg)) ∧
    (attempt 0 (_format_string media_type height) = .ok →
      _try_download_one attempt media_type height =
        ([_format_string media_type height], .ok)) ∧
    (attempt 0 (_format_string media_type height) = .otherRaise →
      _try_download_one attempt media_type height =
        ([_format_string media_type height], .otherRaise)) := by
  refine ⟨?_, ?_, ?_, ?_⟩
  · intro msg ha hm
    simp only [_try_download_one, ha, hm, if_true]
  · intro msg ha hm
    simp only [_try_download_one, ha, hm, Bool.false_eq_true, if_false]
  · intro ha
    simp only [_try_download_one, ha]
  · intro ha
    simp only [_try_download_one, ha]

/-- Oracle whose first attempt reports the requested format unavailable and
whose fallback succeeds. -/
def fallbackOracle : Nat → String → DlAttempt :=
  fun k _ =>
    if k = 0 then .dlError "Requested format is not available" else .ok

/-- C7 (witness): with the concrete oracle above and a 720p video request,
the embedded `_try_download_one` makes exactly the two attempts (requested
format, then best) and succeeds. -/
theorem try_download_one_fallback_witness :
    _try_download_one fallbackOracle "video" (some 720) =
      (["bv*[height=720]+ba/b[height=720]", "bv*+ba/b"], .ok) := by
  have h := (try_download_one_fallback fallbackOracle "video" (some 720)).1
      "Requested format is not available" rfl (by decide)
  rw [h]
  rfl

/-! ### `_resolve_root_dir`  (downloader.py 43-54) -/

/-- Model of POSIX `os.path.isabs`. -/
def isAbs (p : String) : Bool := strIsPrefix "/" p

/-- Model of POSIX `os.path.join(a, b)` for the cases used here. -/
def pathJoin (a b : String) : String :=
  if isAbs b then b
  else if a = "" ∨ strIsSuffix "/" a then a ++ b
  else a ++ "/" ++ b

/-- Model of `os.path.expanduser` for a home directory `home` (assumed, as
usual, nonempty without trailing slash): a leading `~` is replaced by
`home`; `~user` forms for other users are kept unchanged. -/
def expandUser (home p : String) : String :=
  if p = "~" then home
  else if strIsPrefix "~/" p then home ++ p.drop 1
  else p

/-- Environment of the path resolver: the internal storage root, the two
default buckets, the home directory, and the success oracle of
`os.makedirs`. -/
structure PathEnv where
  storage_dir : String
  default_vid_bucket : String
  default_aud_bucket : String
  home : String
  mkdirOk : String → Bool

/-- Root directory chosen by `_resolve_root_dir` before the `os.makedirs`
attempt (downloader.py lines 44-48). -/
def _resolve_root_candidate (env : PathEnv) (user_dir : Option String)
    (media_type : String) : String :=
  let ud := user_dir.getD ""
  if ud ≠ "" then
    let d := expandUser env.home ud
    if isAbs d then d else pathJoin env.storage_dir d
  else if media_type = "video" then env.default_vid_bucket
  else env.default_aud_bucket

/-- Embedding of `_resolve_root_dir` (downloader.py lines 43-54): attempt
to create the candidate root; on failure fall back to the storage root and
create that.  `.error` models the exception escaping when even the storage
root cannot be created. -/
def _resolve_root_dir (env : PathEnv) (user_dir : Option String)
    (media_type : String) : Except Unit String :=
  let root := _resolve_root_candidate env user_dir media_type
  if env.mkdirOk root then .ok root
  else if env.mkdirOk env.storage_dir then .ok env.storage_dir
  else .error ()

theorem expandUser_of_abs (home d : String) (h : isAbs d = true) :
    expandUser home d = d := by
  unfold isAbs strIsPrefix at h
  rw [List.isPrefixOf_iff_prefix] at h
  obtain ⟨t, ht⟩ := h
  have h1 : d ≠ "~" := by
    intro he
    rw [he, show ("~" : String).toList = ['~'] from rfl] at ht
    simp at ht
  have h2 : ¬ (strIsPrefix "~/" d = true) := by
    intro hp
    unfold strIsPrefix at hp
    rw [List.isPrefixOf_iff_prefix] at hp
    obtain ⟨u, hu⟩ := hp
    rw [← ht] at hu
    simp at hu
  unfold expandUser
  rw [if_neg h1, if_neg h2]

theorem pathJoin_under (a b : String) (h : isAbs b = false) :
    ∃ rest, pathJoin a b = a ++ rest := by
  unfold pathJoin
  rw [h]
  simp only [Bool.false_eq_true, if_false]
  split
  · exact ⟨b, rfl⟩
  · exact ⟨"/" ++ b, by rw [String.append_assoc]⟩

/-- C9: for a nonempty user-supplied directory (with the storage root
itself creatable, as `ensure_default_buckets` arranges at import time):
a string that is relative after tilde expansion resolves to a path of the
form `storage_dir ++ rest` — under the internal storage root, never under
the filesystem root or the working directory; an absolute string is used
verbatim when creatable; if creating the candidate fails the resolver
silently answers the storage root; and the resolver always returns a
directory rather than an error, so job creation cannot fail on an
unwritable path. -/
theorem resolve_root_dir_spec (env : PathEnv) (d media_type : String)
    (hne : d ≠ "") (hstor : env.mkdirOk env.storage_dir = true) :
    (isAbs (expandUser env.home d) = false →
      ∃ rest, _resolve_root_dir env (some d) media_type =
        .ok (env.storage_dir ++ rest)) ∧
    (isAbs d = true → env.mkdirOk d = true →
      _resolve_root_dir env (some d) media_type = .ok d) ∧
    (env.mkdirOk (_resolve_root_candidate env (some d) media_type) = false →
      _resolve_root_dir env (some d) media_type = .ok env.storage_dir) ∧
    (∃ r, _resolve_root_dir env (some d) media_type = .ok r) := by
  refine ⟨?_, ?_, ?_, ?_⟩
  · intro hrel
    have hcand : _resolve_root_candidate env (some d) media_type =
        pathJoin env.storage_dir (expandUser env.home d) := by
      simp [_resolve_root_candidate, hne, hrel]
    obtain ⟨rest0, hr0⟩ :=
      pathJoin_under env.storage_dir (expandUser env.home d) hrel
    simp only [_resolve_root_dir]
    rw [hcand, hr0]
    by_cases hmk : env.mkdirOk (env.storage_dir ++ rest0) = true
    · rw [if_pos hmk]
      exact ⟨rest0, rfl⟩
    · rw [if_neg hmk, if_pos hstor]
      exact ⟨"", by rw [String.append_empty]⟩
  · intro habs hmk
    have hexp := expandUser_of_abs env.home d habs
    have hcand : _resolve_root_candidate env (some d) media_type = d := by
      simp [_resolve_root_candidate, hne, hexp, habs]
    unfold _resolve_root_dir
    rw [hcand, if_pos hmk]
  · intro hfail
    unfold _resolve_root_dir
    rw [if_neg (by simp [hfail]), if_pos hstor]
  · simp only [_resolve_root_dir]
    by_cases hmk :
        env.mkdirOk (_resolve_root_candidate env (some d) media_type) = true
    · rw [if_pos hmk]
      exact ⟨_, rfl⟩
    · rw [if_neg hmk, if_pos hstor]
      exact ⟨_, rfl⟩

/-- Environment with a writable storage root and an unwritable user path,
for evaluating the resolver concretely. -/
def demoPathEnv : PathEnv :=
  { storage_dir := "/app/storage"
    default_vid_bucket := "/home/u/Downloads/Yt_videos"
    default_aud_bucket := "/home/u/Downloads/Yt_audios"
    home := "/home/u"
    mkdirOk := fun p => p ≠ "/mnt/readonly" }

/-- C9 (witness): the concrete relative path `"clips"` resolves under the
storage root — to `/app/storage/clips` — without error. -/
theorem resolve_root_dir_spec_witness :
    (∃ rest, _resolve_root_dir demoPathEnv (some "clips") "video" =
      .ok ("/app/storage" ++ rest)) ∧
    _resolve_root_dir demoPathEnv (some "clips") "video" =
      .ok "/app/storage/clips" :=
  ⟨(resolve_root_dir_spec demoPathEnv "clips" "video"
      (by decide) (by decide)).1 (by decide),
   by rfl⟩

/-! ### The Staging Reconciler  (downloader.py 262-297)

`_move_completed_to_final` walks the staging tree, skips `.part`/`.ytdl`
artifacts, moves every other regular file to `_unique_dst(final_dir, f)`
(note: only the bare file name is passed, whatever subdirectory the file
occupied), then removes the whole staging tree.  The filesystem is
modelled as lists of regular files; destination-existence checks see the
names already present at the top level of the final directory, including
files moved earlier in the same walk. -/

/-- Temporary-artifact test of the reconciler (downloader.py line 283). -/
def isTempName (f : String) : Bool :=
  strIsSuffix ".part" f || strIsSuffix ".ytdl" f

/-- Model of `os.path.splitext` on a bare file name: split at the last
dot, except when every character before that dot is itself a dot (then
there is no extension), matching the posixpath implementation. -/
def splitext (name : String) : String × String :=
  let cs := name.toList
  let after := cs.reverse.takeWhile (fun c => c ≠ '.')
  if after.length = cs.length then (name, "")
  else
    let base := cs.take (cs.length - after.length - 1)
    if base.all (fun c => c = '.') then (name, "")
    else (String.mk base, String.mk ('.' :: after.reverse))

/-- Candidate name built by `_unique_dst` for disambiguator `n`
(the f-string at downloader.py line 267). -/
def dstCandidate (base ext : String) (n : Nat) : String :=
  base ++ " (" ++ Nat.repr n ++ ")" ++ ext

/-- While-loop of `_unique_dst` (lines 265-268): try disambiguators n,
n+1, … until the candidate is not an existing name.  The fuel (the
function is called with one more than the number of existing names) only
bounds the loop; the candidates being pairwise distinct, it is never
exhausted. -/
def uniqueDstAux (existing : List String) (base ext : String) :
    Nat → Nat → String
  | n, 0 => dstCandidate base ext n
  | n, fuel + 1 =>
    if dstCandidate base ext n ∈ existing then
      uniqueDstAux existing base ext (n + 1) fuel
    else dstCandidate base ext n

/-- Embedding of `_unique_dst` (downloader.py lines 262-269) over the set
of names already present in the destination directory (the
`os.path.exists` checks); returns the chosen file name (the source
returns it joined to `dst_dir`). -/
def _unique_dst (existing : List String) (filename : String) : String :=
  if filename ∈ existing then
    uniqueDstAux existing (splitext filename).1 (splitext filename).2 1
      (existing.length + 1)
  else filename

/-- A regular file inside a directory tree: subdirectory components
relative to the tree root, then the file name. -/
structure FsFile where
  dirs : List String
  name : String
  deriving DecidableEq

/-- Names present at the top level of a directory's file list. -/
def topNames (fs : List FsFile) : List String :=
  (fs.filter (fun g => g.dirs = [])).map (fun g => g.name)

/-- Files added to the final directory by the walk loop of
`_move_completed_to_final` (lines 281-295): temporary artifacts are
skipped; every other file lands at `_unique_dst` of its bare name,
directly at the top level of the final directory.  `names` is the list of
top-level names currently existing there, which grows as files arrive. -/
def moveAdds : List FsFile → List String → List FsFile
  | [], _ => []
  | f :: rest, names =>
    if isTempName f.name then moveAdds rest names
    else
      let nm := _unique_dst names f.name
      ⟨[], nm⟩ :: moveAdds rest (nm :: names)

/-- Outcome of the reconciler: the final directory's files afterwards,
and whether the staging tree still exists. -/
structure MoveResult where
  finalFiles : List FsFile
  stagingRemoved : Bool
  deriving DecidableEq

/-- Embedding of `_move_completed_to_final` (downloader.py lines 271-297)
on an existing staging tree with nonempty `work_dir`/`final_dir` strings:
relocate every non-temporary regular file, then `shutil.rmtree` removes
the staging tree.  `staging` lists the staging tree's regular files in
`os.walk` order; `final` the files already in the final directory. -/
def _move_completed_to_final (staging : List FsFile) (final : List FsFile) :
    MoveResult :=
  ⟨final ++ moveAdds staging (topNames final), true⟩

/-! ### Decimal-representation lemmas

`_unique_dst`'s loop terminates on a fresh name because distinct
disambiguators give distinct candidate strings; this needs injectivity of
`Nat.repr`, proved here through an explicit digit list. -/

/-- Decimal digit list of a natural number (the unfolding of
`Nat.toDigitsCore` once given sufficient fuel). -/
def decDigits (n : Nat) : List Char :=
  if n < 10 then [Nat.digitChar n]
  else decDigits (n / 10) ++ [Nat.digitChar (n % 10)]
  decreasing_by exact Nat.div_lt_self (by omega) (by omega)

theorem toDigitsCore_eq_decDigits :
    ∀ (fuel n : Nat) (ds : List Char), n ≤ fuel →
      Nat.toDigitsCore 10 (fuel + 1) n ds = decDigits n ++ ds := by
  intro fuel
  induction fuel with
  | zero =>
    intro n ds hn
    interval_cases n
    simp [Nat.toDigitsCore, decDigits]
  | succ fuel ih =>
    intro n ds hn
    by_cases h0 : n / 10 = 0
    · have hlt : n < 10 := by omega
      rw [decDigits, if_pos hlt]
      simp [Nat.toDigitsCore, h0, Nat.mod_eq_of_lt hlt]
    · have hge : 10 ≤ n := by omega
      have hda : n / 10 < n := by omega
      have ih' := ih (n / 10) ((n % 10).digitChar :: ds) (by omega)
      conv_rhs => rw [decDigits]
      rw [if_neg (show ¬ n < 10 by omega)]
      calc Nat.toDigitsCore 10 (fuel + 1 + 1) n ds
          = Nat.toDigitsCore 10 (fuel + 1) (n / 10) ((n % 10).digitChar :: ds) := by
            rw [Nat.toDigitsCore]
            simp [h0]
        _ = decDigits (n / 10) ++ ((n % 10).digitChar :: ds) := ih'
        _ = (decDigits (n / 10) ++ [(n % 10).digitChar]) ++ ds := by
            simp [List.append_assoc]

theorem repr_eq_decDigits (n : Nat) : Nat.repr n = (decDigits n).asString := by
  show (Nat.toDigits 10 n).asString = (decDigits n).asString
  unfold Nat.toDigits
  rw [toDigitsCore_eq_decDigits n n [] le_rfl]
  simp

/-- Value of a decimal digit list, inverse of `decDigits`. -/
def decVal (cs : List Char) : Nat :=
  cs.foldl (fun a c => a * 10 + (c.toNat - 48)) 0

theorem digitChar_val : ∀ d, d < 10 → (Nat.digitChar d).toNat - 48 = d := by
  decide

theorem decVal_decDigits (n : Nat) : decVal (decDigits n) = n := by
  induction n using Nat.strong_induction_on with
  | _ n ih =>
    by_cases h : n < 10
    · rw [decDigits, if_pos h]
      show (0 * 10 + ((Nat.digitChar n).toNat - 48)) = n
      rw [digitChar_val n h]
      omega
    · rw [decDigits, if_neg h]
      unfold decVal
      rw [List.foldl_append]
      have ihd := ih (n / 10) (Nat.div_lt_self (by omega) (by omega))
      unfold decVal at ihd
      rw [ihd]
      show n / 10 * 10 + ((Nat.digitChar (n % 10)).toNat - 48) = n
      rw [digitChar_val (n % 10) (Nat.mod_lt n (by omega))]
      omega

theorem repr_injective : Function.Injective Nat.repr := by
  intro m n h
  rw [repr_eq_decDigits, repr_eq_decDigits] at h
  have hd : decDigits m = decDigits n := congrArg String.data h
  have hv := decVal_decDigits m
  rw [hd, decVal_decDigits n] at hv
  exact hv.symm

theorem dstCandidate_injective (base ext : String) :
    Function.Injective (dstCandidate base ext) := by
  intro m n h
  unfold dstCandidate at h
  have hd := congrArg String.data h
  simp only [String.data_append, List.append_assoc] at hd
  have h1 := List.append_cancel_left hd
  have h2 := List.append_cancel_left h1
  have h3 := List.append_cancel_right h2
  exact repr_injective (String.ext h3)

/-! ### Freshness and shape of `_unique_dst` -/

theorem exists_fresh_candidate (existing : List String) (base ext : String) :
    ∃ k < existing.length + 1, dstCandidate base ext (1 + k) ∉ existing := by
  by_contra hall
  push_neg at hall
  have hmaps : ∀ k ∈ Finset.range (existing.length + 1),
      (fun k => dstCandidate base ext (1 + k)) k ∈ existing.toFinset :=
    fun k hk => List.mem_toFinset.2 (hall k (Finset.mem_range.1 hk))
  have hinj : Set.InjOn (fun k => dstCandidate base ext (1 + k))
      (Finset.range (existing.length + 1)) := by
    intro a _ b _ hab
    have := dstCandidate_injective base ext hab
    omega
  have hcard := Finset.card_le_card_of_injOn _ hmaps hinj
  rw [Finset.card_range] at hcard
  have := List.toFinset_card_le existing
  omega

theorem uniqueDstAux_fresh (existing : List String) (base ext : String) :
    ∀ (fuel n : Nat), (∃ k < fuel, dstCandidate base ext (n + k) ∉ existing) →
      uniqueDstAux existing base ext n fuel ∉ existing := by
  intro fuel
  induction fuel with
  | zero =>
    intro n h
    obtain ⟨k, hk, _⟩ := h
    omega
  | succ fuel ih =>
    intro n h
    obtain ⟨k, hk, hke⟩ := h
    unfold uniqueDstAux
    by_cases hmem : dstCandidate base ext n ∈ existing
    · rw [if_pos hmem]
      apply ih
      have hk0 : k ≠ 0 := by
        intro h0
        rw [h0, Nat.add_zero] at hke
        exact hke hmem
      refine ⟨k - 1, by omega, ?_⟩
      have harith : n + 1 + (k - 1) = n + k := by omega
      rw [harith]
      exact hke
    · rw [if_neg hmem]
      exact hmem

theorem uniqueDstAux_shape (existing : List String) (base ext : String) :
    ∀ (fuel n : Nat), ∃ m, n ≤ m ∧
      uniqueDstAux existing base ext n fuel = dstCandidate base ext m := by
  intro fuel
  induction fuel with
  | zero => intro n; exact ⟨n, le_rfl, rfl⟩
  | succ fuel ih =>
    intro n
    unfold uniqueDstAux
    by_cases hmem : dstCandidate base ext n ∈ existing
    · rw [if_pos hmem]
      obtain ⟨m, hm, he⟩ := ih (n + 1)
      exact ⟨m, by omega, he⟩
    · rw [if_neg hmem]
      exact ⟨n, le_rfl, rfl⟩

/-- The name chosen by `_unique_dst` never collides with an existing name
(so no file in the destination is overwritten). -/
theorem unique_dst_fresh (existing : List String) (filename : String) :
    _unique_dst existing filename ∉ existing := by
  unfold _unique_dst
  by_cases hmem : filename ∈ existing
  · rw [if_pos hmem]
    apply uniqueDstAux_fresh
    exact exists_fresh_candidate existing (splitext filename).1
      (splitext filename).2
  · rw [if_neg hmem]
    exact hmem

/-- The chosen name is the original one, or the original base with a
numeric disambiguator appended before the extension. -/
theorem unique_dst_shape (existing : List String) (filename : String) :
    _unique_dst existing filename = filename ∨
    ∃ n, 1 ≤ n ∧ _unique_dst existing filename =
      dstCandidate (splitext filename).1 (splitext filename).2 n := by
  unfold _unique_dst
  by_cases hmem : filename ∈ existing
  · rw [if_pos hmem]
    obtain ⟨m, hm, he⟩ :=
      uniqueDstAux_shape existing (splitext filename).1 (splitext filename).2
        (existing.length + 1) 1
    exact Or.inr ⟨m, hm, he⟩
  · rw [if_neg hmem]
    exact Or.inl rfl

/-! ### Properties of the walk loop -/

theorem moveAdds_cons (f : FsFile) (rest : List FsFile) (names : List String) :
    moveAdds (f :: rest) names =
      if isTempName f.name then moveAdds rest names
      else ⟨[], _unique_dst names f.name⟩ ::
        moveAdds rest (_unique_dst names f.name :: names) := rfl

theorem moveAdds_length : ∀ (staging : List FsFile) (names : List String),
    (moveAdds staging names).length =
      (staging.filter (fun f => !(isTempName f.name))).length := by
  intro staging
  induction staging with
  | nil => intro names; rfl
  | cons f rest ih =>
    intro names
    cases ht : isTempName f.name with
    | true =>
      have he : moveAdds (f :: rest) names = moveAdds rest names := by
        rw [moveAdds_cons, ht, if_pos rfl]
      rw [he, List.filter_cons]
      simp [ht, ih]
    | false =>
      have he : moveAdds (f :: rest) names =
          ⟨[], _unique_dst names f.name⟩ ::
            moveAdds rest (_unique_dst names f.name :: names) := by
        rw [moveAdds_cons, ht]
        simp
      rw [he, List.filter_cons]
      simp [ht, ih]

theorem moveAdds_spec : ∀ (staging : List FsFile) (names : List String),
    (∀ g ∈ moveAdds staging names,
      g.dirs = [] ∧ g.name ∉ names ∧
      ∃ f ∈ staging, isTempName f.name = false ∧
        (g.name = f.name ∨ ∃ n, 1 ≤ n ∧
          g.name = dstCandidate (splitext f.name).1 (splitext f.name).2 n)) ∧
    ((moveAdds staging names).map (fun g => g.name)).Nodup := by
  intro staging
  induction staging with
  | nil =>
    intro names
    refine ⟨?_, by simp [moveAdds]⟩
    intro g hg
    simp [moveAdds] at hg
  | cons f rest ih =>
    intro names
    cases ht : isTempName f.name with
    | true =>
      have he : moveAdds (f :: rest) names = moveAdds rest names := by
        rw [moveAdds_cons, ht, if_pos rfl]
      rw [he]
      obtain ⟨h1, h2⟩ := ih names
      refine ⟨?_, h2⟩
      intro g hg
      obtain ⟨hd, hn, f', hf', hshape⟩ := h1 g hg
      exact ⟨hd, hn, f', List.mem_cons_of_mem f hf', hshape⟩
    | false =>
      have he : moveAdds (f :: rest) names =
          ⟨[], _unique_dst names f.name⟩ ::
            moveAdds rest (_unique_dst names f.name :: names) := by
        rw [moveAdds_cons, ht]
        simp
      rw [he]
      obtain ⟨h1, h2⟩ := ih (_unique_dst names f.name :: names)
      constructor
      · intro g hg
        rcases List.mem_cons.1 hg with rfl | hg2
        · exact ⟨rfl, unique_dst_fresh names f.name,
            f, List.mem_cons_self f rest, ht, unique_dst_shape names f.name⟩
        · obtain ⟨hd, hn, f', hf', hshape⟩ := h1 g hg2
          exact ⟨hd, fun hmem => hn (List.mem_cons_of_mem _ hmem),
            f', List.mem_cons_of_mem f hf', hshape⟩
      · rw [List.map_cons]
        refine List.nodup_cons.2 ⟨?_, h2⟩
        intro hmem
        obtain ⟨g, hg, hge⟩ := List.mem_map.1 hmem
        obtain ⟨_, hn, _⟩ := h1 g hg
        exact hn (hge ▸ List.mem_cons_self _ _)

/-! ### Claim C2 -/

/-- C2 (counterexample): the reconciler does NOT preserve subfolder
structure: a file stored under staging subfolder `sub` is moved to the
top level of the final directory, not to `sub` inside it. -/
theorem move_completed_flattens_subfolders :
    (⟨[], "a.mp4"⟩ : FsFile) ∈
      (_move_completed_to_final [⟨["sub"], "a.mp4"⟩] []).finalFiles ∧
    (⟨["sub"], "a.mp4"⟩ : FsFile) ∉
      (_move_completed_to_final [⟨["sub"], "a.mp4"⟩] []).finalFiles := by
  decide

/-- C2 (amended): the reconciler removes the staging tree, moves every
regular file whose name lacks a `.part`/`.ytdl` suffix into the final
directory — flattened to its top level, regardless of the file's staging
subfolder — renaming on collision by a numeric disambiguator appended
before the extension; no two moved files share a name and none overwrites
a file already in the final directory. -/
theorem move_completed_to_final_spec (staging final : List FsFile) :
    (_move_completed_to_final staging final).stagingRemoved = true ∧
    (_move_completed_to_final staging final).finalFiles =
      final ++ moveAdds staging (topNames final) ∧
    (_move_completed_to_final staging final).finalFiles.length =
      final.length + (staging.filter (fun f => !(isTempName f.name))).length ∧
    (∀ g ∈ moveAdds staging (topNames final),
      g.dirs = [] ∧ g.name ∉ topNames final ∧
      ∃ f ∈ staging, isTempName f.name = false ∧
        (g.name = f.name ∨ ∃ n, 1 ≤ n ∧
          g.name = dstCandidate (splitext f.name).1 (splitext f.name).2 n)) ∧
    ((moveAdds staging (topNames final)).map (fun g => g.name)).Nodup := by
  refine ⟨rfl, rfl, ?_, (moveAdds_spec staging (topNames final)).1,
    (moveAdds_spec staging (topNames final)).2⟩
  show (final ++ moveAdds staging (topNames final)).length = _
  rw [List.length_append, moveAdds_length]

/-- C2 (witness): with staging `sub/a.mp4` and a final directory already
holding `a.mp4`, the moved file lands at top level under the
disambiguated name `a (1).mp4`, which does not collide. -/
theorem move_completed_to_final_spec_witness :
    (⟨[], "a (1).mp4"⟩ : FsFile).dirs = [] ∧
    (⟨[], "a (1).mp4"⟩ : FsFile).name ∉ topNames [⟨[], "a.mp4"⟩] ∧
    ∃ f ∈ [(⟨["sub"], "a.mp4"⟩ : FsFile)], isTempName f.name = false ∧
      ((⟨[], "a (1).mp4"⟩ : FsFile).name = f.name ∨ ∃ n, 1 ≤ n ∧
        (⟨[], "a (1).mp4"⟩ : FsFile).name =
          dstCandidate (splitext f.name).1 (splitext f.name).2 n) :=
  (move_completed_to_final_spec [⟨["sub"], "a.mp4"⟩] [⟨[], "a.mp4"⟩]).2.2.2.1
    ⟨[], "a (1).mp4"⟩ (by decide)
